import Mathlib

/-!
Verification development for the email style-analysis application.

The repository snapshot contains the SQL schema
(src/backend/email_analysis_schema.sql) and the React frontend
(EmailReview, SyntheticEmailReview, EmailInputForm, EmailGenerator,
StyleAnalysisResults, App). The Flask backend that implements the
feedback processor, the profile finalizer and the sample generator is
not part of the snapshot, so those operations are modelled from the
specification; the frontend components and the schema are embedded
directly from the source.
-/

namespace EmailAssist

/-- Row of the synthetic_emails table
(src/backend/email_analysis_schema.sql): id, user_id, category NOT NULL,
content NOT NULL, approved BOOLEAN DEFAULT FALSE, rating nullable,
feedback nullable, original_email_id nullable self-reference. -/
structure SyntheticEmail where
  id : Nat
  userId : Nat
  category : String
  content : String
  approved : Bool
  rating : Option Nat
  feedback : Option String
  originalEmailId : Option Nat
  deriving Repr, DecidableEq

/-- Persistent store of synthetic_emails rows together with the next
SERIAL primary key value. -/
structure Store where
  rows : List SyntheticEmail
  nextId : Nat
  deriving Repr, DecidableEq

/-- Error taxonomy of the feedback processor (spec section 7). -/
inductive FeedbackError where
  | NotFound
  | ValidationError
  | InvalidStateTransition
  deriving Repr, DecidableEq

/-- One call to the external language model made while regenerating a
rejected sample: the original content, its category, the numeric rating
and the free-text comments (spec section 4.3). -/
structure ModelCall where
  content : String
  category : String
  rating : Nat
  comments : String
  deriving Repr, DecidableEq

/-- A rating is missing when it is absent or zero (the JS falsy check
used by the UI, `disabled={!rating || !feedback}`; the spec restricts
ratings to 1-100, so zero is never a provided rating). -/
def ratingMissing : Option Nat → Bool
  | none => true
  | some r => r == 0

/-- Comments are missing when absent or empty (JS falsy check). -/
def commentsMissing : Option String → Bool
  | none => true
  | some c => c == ""

/-- Modelled from the spec: the backend route POST /api/email-feedback
(Feedback Processor, spec section 4.3) is not in the repository
snapshot; only its HTTP callers (EmailReview.handleApprove,
EmailReview.handleReject, SyntheticEmailReview) and the
synthetic_emails schema are. Behaviour per the spec: on approval of a
pending row, set approved with the provided rating and comments; on
approval of an already-approved row, a no-op success (idempotent); on
rejection, required rating and comments are validated first
(ValidationError, detected before any external call, spec section 7),
re-rejecting an approved row fails with InvalidStateTransition, and
rejecting a pending row calls the model once and appends a new row with
the same category, approved false and originalEmailId pointing at the
rejected row, leaving the original row as-is. Returns the result paired
with the list of external-model calls made. -/
def submitFeedback (model : ModelCall → String) (st : Store) (emailId : Nat)
    (isApproved : Bool) (rating : Option Nat) (comments : Option String) :
    Except FeedbackError (Store × SyntheticEmail) × List ModelCall :=
  if isApproved then
    match st.rows.find? (fun r => r.id == emailId) with
    | none => (Except.error FeedbackError.NotFound, [])
    | some s =>
      if s.approved then
        (Except.ok (st, s), [])
      else
        let s' : SyntheticEmail :=
          { s with approved := true, rating := rating, feedback := comments }
        (Except.ok
          ({ st with rows := st.rows.map (fun r => if r.id == emailId then s' else r) }, s'),
         [])
  else
    if ratingMissing rating || commentsMissing comments then
      (Except.error FeedbackError.ValidationError, [])
    else
      match st.rows.find? (fun r => r.id == emailId) with
      | none => (Except.error FeedbackError.NotFound, [])
      | some s =>
        if s.approved then
          (Except.error FeedbackError.InvalidStateTransition, [])
        else
          let call : ModelCall :=
            { content := s.content, category := s.category,
              rating := rating.getD 0, comments := comments.getD "" }
          let newEmail : SyntheticEmail :=
            { id := st.nextId, userId := s.userId, category := s.category,
              content := model call, approved := false, rating := none,
              feedback := none, originalEmailId := some s.id }
          (Except.ok ({ rows := st.rows ++ [newEmail], nextId := st.nextId + 1 }, newEmail),
           [call])

/-- Arguments of one submitFeedback request. -/
structure Call where
  emailId : Nat
  isApproved : Bool
  rating : Option Nat
  comments : Option String
  deriving Repr, DecidableEq

/-- Apply one feedback request to the store: on success the store is
replaced by the returned one, on any error it is unchanged. -/
def step (model : ModelCall → String) (st : Store) (c : Call) : Store :=
  match (submitFeedback model st c.emailId c.isApproved c.rating c.comments).fst with
  | Except.ok (st', _) => st'
  | Except.error _ => st

/-- Apply a sequence of feedback requests in order. -/
def runCalls (model : ModelCall → String) (st : Store) (calls : List Call) : Store :=
  calls.foldl (step model) st

/-- Error of the profile finalizer (spec section 4.4). -/
inductive ProfileError where
  | NoApprovedSamples
  deriving Repr, DecidableEq

/-- The synthetic_emails rows of one user with approved = true, in
store order. -/
def approvedSamples (st : Store) (userId : Nat) : List SyntheticEmail :=
  st.rows.filter (fun r => r.userId == userId && r.approved)

/-- Modelled from the spec: the backend operation saveStyleProfile
(Profile Finalizer, spec section 4.4) is not in the repository
snapshot. Per the spec it reads all SyntheticEmail rows of the user
with approved = true with no further transformation, and fails with
NoApprovedSamples when that set is empty. -/
def saveStyleProfile (st : Store) (userId : Nat) :
    Except ProfileError (List SyntheticEmail) :=
  let samples := approvedSamples st userId
  if samples.isEmpty then
    Except.error ProfileError.NoApprovedSamples
  else
    Except.ok samples

/-- One style category of a StyleAnalysis, as rendered by
StyleAnalysisResults.jsx (name, description, key_characteristics). -/
structure StyleCategory where
  name : String
  description : String
  key_characteristics : List String
  deriving Repr, DecidableEq

/-- A style analysis: overall_style_summary plus categories
(StyleAnalysisResults.jsx fields). -/
structure StyleAnalysis where
  overall_style_summary : String
  categories : List StyleCategory
  deriving Repr, DecidableEq

/-- The fixed number of samples requested per category; observed in
SyntheticEmailReview.jsx, which renders the text
"For each category, we generated 10 sample emails". -/
def samplesPerCategory : Nat := 10

/-- Modelled from the spec: the backend Sample Generator route
GET /api/synthetic-emails (spec section 4.2) is not in the repository
snapshot; only its caller (StyleAnalysisResults.handleGenerateSyntheticEmails)
and the synthetic_emails schema are. Per the spec it produces, for each
category of the StyleAnalysis in order, samplesPerCategory synthetic
emails exhibiting that category, all with approved = false and no
originalEmailId; the result is a mapping from category name to the
generated sequence. Ids are assigned sequentially from startId and the
external model is an opaque function of the summary, the category and
the sample index. -/
def generateSamples (model : String → StyleCategory → Nat → String)
    (userId startId : Nat) (a : StyleAnalysis) :
    List (String × List SyntheticEmail) :=
  a.categories.enum.map (fun ci =>
    (ci.2.name, (List.range samplesPerCategory).map (fun i =>
      { id := startId + ci.1 * samplesPerCategory + i,
        userId := userId,
        category := ci.2.name,
        content := model a.overall_style_summary ci.2 i,
        approved := false,
        rating := none,
        feedback := none,
        originalEmailId := none })))

/-- Validation errors raised by EmailGenerator.handleSubmit before the
request is sent (third component concatenated into ProtectedRoute.jsx). -/
inductive GenSubmitError where
  | userIdMissing
  | recipientRequired
  | topicRequired
  | keyPointsRequired
  deriving Repr, DecidableEq

/-- The request body EmailGenerator.handleSubmit posts to
/api/generate-email when validation passes. -/
structure GenRequest where
  userId : Nat
  recipient : String
  topic : String
  keyPoints : List String
  deriving Repr, DecidableEq

/-- The JS check `!s.trim()`: the string trims to the empty string,
that is, every character is whitespace. -/
def isBlank (s : String) : Bool :=
  s.data.all Char.isWhitespace

/-- EmailGenerator.handleSubmit (ProtectedRoute.jsx): checks, in order,
that effectiveUserId is truthy, that recipient does not trim to empty,
that topic does not trim to empty, and that keyPointsList is
non-empty; each failing check sets an error and returns before the
axios.post call. Returns the posted request on success, the validation
error otherwise (an error result means no request is issued). The
source hardcodes effectiveUserId = 1. -/
def emailGeneratorSubmit (effectiveUserId : Nat) (recipient topic : String)
    (keyPointsList : List String) : Except GenSubmitError GenRequest :=
  if effectiveUserId == 0 then
    Except.error GenSubmitError.userIdMissing
  else if isBlank recipient then
    Except.error GenSubmitError.recipientRequired
  else if isBlank topic then
    Except.error GenSubmitError.topicRequired
  else if keyPointsList.length == 0 then
    Except.error GenSubmitError.keyPointsRequired
  else
    Except.ok
      { userId := effectiveUserId, recipient := recipient, topic := topic,
        keyPoints := keyPointsList }

/-- One question/answer pair of the EmailInputForm state
(EmailInputForm.jsx): `{ id, question, answer }`. -/
structure EmailPair where
  id : Nat
  question : String
  answer : String
  deriving Repr, DecidableEq

/-- Initial EmailInputForm state: `[{ id: 1, question: "", answer: "" }]`. -/
def initialPairs : List EmailPair := [{ id := 1, question := "", answer := "" }]

/-- EmailInputForm.handleAddPair: the new id is Math.max over the
existing ids plus one when the list is non-empty, otherwise 1; the new
empty pair is appended. -/
def handleAddPair (ps : List EmailPair) : List EmailPair :=
  let newId := if ps.length > 0 then (ps.map (fun p => p.id)).foldl max 0 + 1 else 1
  ps ++ [{ id := newId, question := "", answer := "" }]

/-- EmailInputForm.handleRemovePair: returns the list unchanged when it
has at most one element, otherwise filters out the pair with the given
id. -/
def handleRemovePair (i : Nat) (ps : List EmailPair) : List EmailPair :=
  if ps.length ≤ 1 then ps else ps.filter (fun p => p.id ≠ i)

/-- The field name passed to EmailInputForm.handleChange. -/
inductive PairField where
  | question
  | answer
  deriving Repr, DecidableEq

/-- The computed-property update `{ ...pair, [field]: value }`. -/
def setField (f : PairField) (v : String) (p : EmailPair) : EmailPair :=
  match f with
  | PairField.question => { p with question := v }
  | PairField.answer => { p with answer := v }

/-- EmailInputForm.handleChange: rewrites only the pair with the
targeted id, leaving every other pair unchanged. -/
def handleChange (i : Nat) (f : PairField) (v : String)
    (ps : List EmailPair) : List EmailPair :=
  ps.map (fun p => if p.id == i then setField f v p else p)

/-- The user-driven operations of the EmailInputForm state machine. -/
inductive FormOp where
  | add
  | remove (id : Nat)
  | change (id : Nat) (f : PairField) (v : String)

/-- Apply one form operation. -/
def applyOp (ps : List EmailPair) : FormOp → List EmailPair
  | FormOp.add => handleAddPair ps
  | FormOp.remove i => handleRemovePair i ps
  | FormOp.change i f v => handleChange i f v ps

/-- Apply a sequence of form operations starting from a given state. -/
def runOps (ops : List FormOp) (ps : List EmailPair) : List EmailPair :=
  ops.foldl applyOp ps

/-- The disabled condition of the submit button in the first
EmailInputForm copy:
`disabled={(emailPairs.length < 2) || loading || isSubmitting}`. -/
def submitDisabled (numPairs : Nat) (loading isSubmitting : Bool) : Bool :=
  decide (numPairs < 2) || loading || isSubmitting

/-- The form submit of the first EmailInputForm copy at the UI level: a
disabled button issues no request, an enabled one submits the current
pairs. -/
def submitRequest (ps : List EmailPair) (loading isSubmitting : Bool) :
    Option (List EmailPair) :=
  if submitDisabled ps.length loading isSubmitting then none else some ps

/-- The disabled condition of the submit button in the second
EmailInputForm copy: `disabled={emailPairs.length < 5 || loading}`. -/
def submitDisabledAlt (numPairs : Nat) (loading : Bool) : Bool :=
  decide (numPairs < 5) || loading

/-- The form submit of the second EmailInputForm copy at the UI level. -/
def submitRequestAlt (ps : List EmailPair) (loading : Bool) :
    Option (List EmailPair) :=
  if submitDisabledAlt ps.length loading then none else some ps

/-- Invariant of the EmailInputForm pair list: non-empty and with
pairwise distinct ids. -/
def formInv (ps : List EmailPair) : Prop :=
  ps ≠ [] ∧ (ps.map (fun p => p.id)).Nodup

/-! Concrete fixtures used by the witness theorems. -/

/-- A pending synthetic email. -/
def sampleRow : SyntheticEmail :=
  { id := 1, userId := 7, category := "Formal", content := "hello",
    approved := false, rating := none, feedback := none, originalEmailId := none }

/-- The same row after approval with the fixed marker rating sent by
EmailReview.handleApprove (rating 100, comments Approved). -/
def approvedRow : SyntheticEmail :=
  { id := 1, userId := 7, category := "Formal", content := "hello",
    approved := true, rating := some 100, feedback := some "Approved",
    originalEmailId := none }

/-- A store holding one pending row. -/
def sampleStore : Store := { rows := [sampleRow], nextId := 2 }

/-- A store holding one approved row. -/
def approvedStore : Store := { rows := [approvedRow], nextId := 2 }

/-- A constant stand-in for the external language model. -/
def constModel : ModelCall → String := fun _ => "better"

/-- Approved sample A of the finalizer scenario of spec section 8. -/
def rowA : SyntheticEmail :=
  { id := 11, userId := 7, category := "Formal", content := "A",
    approved := true, rating := some 100, feedback := some "Approved",
    originalEmailId := none }

/-- Pending sample B of the finalizer scenario of spec section 8. -/
def rowB : SyntheticEmail :=
  { id := 12, userId := 7, category := "Formal", content := "B",
    approved := false, rating := none, feedback := none, originalEmailId := none }

/-- Approved sample C of the finalizer scenario of spec section 8. -/
def rowC : SyntheticEmail :=
  { id := 13, userId := 7, category := "Casual", content := "C",
    approved := true, rating := some 90, feedback := none, originalEmailId := none }

/-- A store with samples A approved, B pending, C approved. -/
def profileStore : Store := { rows := [rowA, rowB, rowC], nextId := 14 }

/-- A two-category style analysis (Formal, Casual). -/
def demoAnalysis : StyleAnalysis :=
  { overall_style_summary := "s",
    categories :=
      [{ name := "Formal", description := "d1", key_characteristics := ["k1"] },
       { name := "Casual", description := "d2", key_characteristics := ["k2"] }] }

/-- A constant stand-in for the sample-generating model. -/
def demoModel : String → StyleCategory → Nat → String := fun _ _ _ => "sample"

/-! Helper lemmas about List.find? used by the feedback-processor
theorems. -/

/-- find? is unchanged by a map that fixes matching elements and
preserves the predicate. -/
theorem find?_map_invariant {α : Type} (q : α → Bool) (f : α → α)
    (h1 : ∀ y, q (f y) = q y) (h2 : ∀ y, q y = true → f y = y) (l : List α) :
    (l.map f).find? q = l.find? q := by
  induction l with
  | nil => rfl
  | cons a t ih =>
    by_cases ha : q a = true
    · simp [List.find?, ha, h1 a, h2 a ha]
    · simp only [Bool.not_eq_true] at ha
      simp [List.find?, ha, h1 a, ih]

/-- Replacing every matching element by a fixed matching value moves
find? to that value, provided a match exists. -/
theorem find?_map_update {α : Type} (q : α → Bool) (z : α) (hz : q z = true)
    (l : List α) (x : α) (h : l.find? q = some x) :
    (l.map fun y => if q y then z else y).find? q = some z := by
  induction l with
  | nil => simp at h
  | cons a t ih =>
    by_cases ha : q a = true
    · simp [List.find?, ha, hz]
    · simp only [Bool.not_eq_true] at ha
      simp only [List.find?, ha, cond_false] at h
      simp [List.find?, ha, ih h]

/-- A successful find? in the left list survives appending on the
right. -/
theorem find?_append_some {α : Type} (q : α → Bool) (l l2 : List α) (x : α)
    (h : l.find? q = some x) : (l ++ l2).find? q = some x := by
  induction l with
  | nil => simp at h
  | cons a t ih =>
    by_cases ha : q a = true
    · simp only [List.find?, ha, cond_true] at h ⊢
      exact h
    · simp only [Bool.not_eq_true] at ha
      simp only [List.cons_append, List.find?, ha, cond_false] at h ⊢
      exact ih h

/-- An approved row is untouched by any single feedback request. -/
theorem approved_row_stable (model : ModelCall → String) (st : Store) (i : Nat)
    (s : SyntheticEmail) (c : Call)
    (hfind : st.rows.find? (fun row => row.id == i) = some s)
    (happ : s.approved = true) :
    (step model st c).rows.find? (fun row => row.id == i) = some s := by
  unfold step submitFeedback
  by_cases hap : c.isApproved
  · simp only [hap, if_true]
    cases hfind2 : st.rows.find? (fun r => r.id == c.emailId) with
    | none => simpa [hfind2] using hfind
    | some s2 =>
      by_cases h2 : s2.approved
      · simp [hfind2, h2, hfind]
      · have hne : c.emailId ≠ i := by
          intro he
          rw [he] at hfind2
          rw [hfind] at hfind2
          injection hfind2 with h3
          rw [h3] at happ
          exact h2 happ
        have hid2' : s2.id = c.emailId := by
          simpa using List.find?_some hfind2
        simp only [hfind2, h2, if_false, Bool.false_eq_true]
        rw [show (st.rows.map fun r =>
              if r.id == c.emailId
              then { s2 with approved := true, rating := c.rating, feedback := c.comments }
              else r).find? (fun row => row.id == i)
            = st.rows.find? (fun row => row.id == i) from ?_, hfind]
        apply find?_map_invariant
        · intro y
          by_cases hy : y.id == c.emailId
          · have hy' : y.id = c.emailId := by simpa using hy
            simp [hy, hid2', hne, hy']
          · simp [hy]
        · intro y hy
          have hy' : y.id = i := by simpa using hy
          have : (y.id == c.emailId) = false := by
            simp [hy']
            exact fun he => hne he.symm
          simp [this]
  · simp only [hap, if_false, Bool.false_eq_true]
    by_cases hval : (ratingMissing c.rating || commentsMissing c.comments) = true
    · simp [hval, hfind]
    · simp only [Bool.not_eq_true] at hval
      simp only [hval, if_false, Bool.false_eq_true]
      cases hfind2 : st.rows.find? (fun r => r.id == c.emailId) with
      | none => simpa [hfind2] using hfind
      | some s2 =>
        by_cases h2 : s2.approved
        · simp [hfind2, h2, hfind]
        · simp only [hfind2, h2, if_false, Bool.false_eq_true]
          exact find?_append_some _ _ _ _ hfind

/-- An approved row is untouched by any sequence of feedback
requests. -/
theorem approved_row_stable_run (model : ModelCall → String) (st : Store) (i : Nat)
    (s : SyntheticEmail) (calls : List Call)
    (hfind : st.rows.find? (fun row => row.id == i) = some s)
    (happ : s.approved = true) :
    (runCalls model st calls).rows.find? (fun row => row.id == i) = some s := by
  induction calls generalizing st with
  | nil => exact hfind
  | cons c cs ih =>
    exact ih (step model st c) (approved_row_stable model st i s c hfind happ)

/-- Rejecting an approved row fails with InvalidStateTransition. -/
theorem reject_approved_fails (model : ModelCall → String) (st : Store) (i : Nat)
    (s : SyntheticEmail) (r : Nat) (c : String)
    (hfind : st.rows.find? (fun row => row.id == i) = some s)
    (happ : s.approved = true) (hr : r ≠ 0) (hc : c ≠ "") :
    (submitFeedback model st i false (some r) (some c)).fst
      = Except.error FeedbackError.InvalidStateTransition := by
  simp [submitFeedback, ratingMissing, commentsMissing, hr, hc, hfind, happ]

/-- After a successful approval the returned store holds the returned
sample at its id, approved. -/
theorem approve_result (model : ModelCall → String) (st : Store) (i : Nat)
    (r0 : Option Nat) (c0 : Option String) (st1 : Store) (s1 : SyntheticEmail)
    (h : (submitFeedback model st i true r0 c0).fst = Except.ok (st1, s1)) :
    st1.rows.find? (fun row => row.id == i) = some s1 ∧ s1.approved = true := by
  unfold submitFeedback at h
  cases hfind : st.rows.find? (fun r => r.id == i) with
  | none => simp [hfind] at h
  | some s =>
    have hid : s.id = i := by simpa using List.find?_some hfind
    by_cases hs : s.approved
    · simp only [hfind, hs, if_true, ite_true] at h
      injection h with h'
      injection h' with ha hb
      subst ha
      subst hb
      exact ⟨hfind, hs⟩
    · simp only [hfind, hs, if_false, Bool.false_eq_true, ite_false] at h
      injection h with h'
      injection h' with ha hb
      subst ha
      subst hb
      refine ⟨?_, rfl⟩
      exact find?_map_update _ _ (by simp [hid]) _ _ hfind

/-- Membership in the approved-samples view. -/
theorem mem_approvedSamples (st : Store) (u : Nat) (e : SyntheticEmail) :
    e ∈ approvedSamples st u ↔ (e ∈ st.rows ∧ e.userId = u ∧ e.approved = true) := by
  simp [approvedSamples, List.mem_filter, and_assoc]

/-! Helper lemmas for the EmailInputForm invariant. -/

/-- The seed of a foldl max is a lower bound of the result. -/
theorem init_le_foldl_max (l : List Nat) (a : Nat) : a ≤ l.foldl max a := by
  induction l generalizing a with
  | nil => exact le_refl a
  | cons b t ih => exact le_trans (le_max_left a b) (ih (max a b))

/-- Every member of a list is at most its foldl max. -/
theorem le_foldl_max (l : List Nat) (a x : Nat) (hx : x ∈ l) : x ≤ l.foldl max a := by
  induction l generalizing a with
  | nil => cases hx
  | cons b t ih =>
    cases hx with
    | head =>
      exact le_trans (le_max_right a x) (init_le_foldl_max t (max a x))
    | tail _ h => exact ih _ h

/-- handleAddPair preserves the form invariant: the fresh id exceeds
every existing id. -/
theorem formInv_add (ps : List EmailPair) (h : formInv ps) :
    formInv (handleAddPair ps) := by
  obtain ⟨hne, hnodup⟩ := h
  unfold handleAddPair
  constructor
  · simp
  · rw [List.map_append]
    rw [List.nodup_append]
    refine ⟨hnodup, List.nodup_singleton _, ?_⟩
    intro x hx hx2
    have hlen : ps.length > 0 := List.length_pos.mpr hne
    simp only [hlen, if_pos] at hx2
    simp only [List.map_cons, List.map_nil, List.mem_singleton] at hx2
    have hle : x ≤ (ps.map (fun p => p.id)).foldl max 0 := le_foldl_max _ 0 x hx
    omega

/-- handleRemovePair preserves the form invariant: the guard keeps the
last pair, and distinct ids mean at most one pair is removed. -/
theorem formInv_remove (i : Nat) (ps : List EmailPair) (h : formInv ps) :
    formInv (handleRemovePair i ps) := by
  obtain ⟨hne, hnodup⟩ := h
  unfold handleRemovePair
  by_cases hlen : ps.length ≤ 1
  · simp only [hlen, if_pos]
    exact ⟨hne, hnodup⟩
  · simp only [hlen, if_neg, Bool.false_eq_true]
    have hnodup2 : ((ps.filter (fun p => p.id ≠ i)).map (fun p => p.id)).Nodup :=
      List.Nodup.sublist (List.Sublist.map _ (List.filter_sublist ps)) hnodup
    refine ⟨?_, hnodup2⟩
    have hlen2 : 2 ≤ ps.length := by omega
    cases ps with
    | nil => simp at hlen2
    | cons a rest =>
      by_cases ha : a.id = i
      · have hrest : ∀ p ∈ rest, p.id ≠ i := by
          intro p hp hpi
          simp only [List.map_cons, List.nodup_cons] at hnodup
          apply hnodup.1
          rw [show a.id = p.id by rw [ha, hpi]]
          exact List.mem_map_of_mem _ hp
        have hfil : rest.filter (fun p => p.id ≠ i) = rest := by
          rw [List.filter_eq_self]
          intro p hp
          simpa using hrest p hp
        have hfa : (decide (a.id ≠ i)) = false := by simp [ha]
        rw [List.filter_cons, hfa]
        simp only [if_false, Bool.false_eq_true, hfil]
        intro h0
        rw [h0] at hlen2
        simp at hlen2
      · have hfa : (decide (a.id ≠ i)) = true := by simp [ha]
        rw [List.filter_cons, hfa]
        simp

/-- handleChange preserves the form invariant: it rewrites fields of
one pair and never its id. -/
theorem formInv_change (i : Nat) (f : PairField) (v : String) (ps : List EmailPair)
    (h : formInv ps) : formInv (handleChange i f v ps) := by
  obtain ⟨hne, hnodup⟩ := h
  unfold handleChange
  constructor
  · simpa using hne
  · rw [List.map_map]
    have hcomp : ((fun p : EmailPair => p.id) ∘
          fun p => if p.id == i then setField f v p else p)
        = fun p : EmailPair => p.id := by
      funext p
      by_cases hpi : p.id = i
      · cases f <;> simp [setField, hpi]
      · simp [hpi]
    rw [hcomp]
    exact hnodup

/-- The form invariant holds along every operation sequence. -/
theorem formInv_runOps (ops : List FormOp) (ps : List EmailPair) (h : formInv ps) :
    formInv (runOps ops ps) := by
  induction ops generalizing ps with
  | nil => exact h
  | cons op rest ih =>
    apply ih
    cases op with
    | add => exact formInv_add ps h
    | remove i => exact formInv_remove i ps h
    | change i f v => exact formInv_change i f v ps h

/-! The claim theorems. -/

/-- C1: rejecting a pending synthetic email S with a rating and
comments yields a new synthetic email whose originalEmailId is S.id,
whose category equals the category of S, and which is not approved,
while S itself is left unchanged in the store (the old rows, S
included, are kept as they were; S stays unapproved and is not
deleted). -/
theorem reject_creates_successor (model : ModelCall → String) (st : Store)
    (S : SyntheticEmail) (r : Nat) (c : String)
    (hfind : st.rows.find? (fun row => row.id == S.id) = some S)
    (hpend : S.approved = false) (hr : r ≠ 0) (hc : c ≠ "") :
    ∃ S', submitFeedback model st S.id false (some r) (some c)
        = (Except.ok ({ rows := st.rows ++ [S'], nextId := st.nextId + 1 }, S'),
           [{ content := S.content, category := S.category, rating := r, comments := c }])
      ∧ S'.originalEmailId = some S.id ∧ S'.category = S.category ∧ S'.approved = false
      ∧ S ∈ st.rows ∧ S.approved = false := by
  refine ⟨{ id := st.nextId, userId := S.userId, category := S.category,
            content := model { content := S.content, category := S.category,
                               rating := r, comments := c },
            approved := false, rating := none, feedback := none,
            originalEmailId := some S.id }, ?_, rfl, rfl, rfl,
          List.mem_of_find?_eq_some hfind, hpend⟩
  simp [submitFeedback, ratingMissing, commentsMissing, hr, hc, hfind, hpend]

/-- Witness for C1 on a one-row store. -/
theorem reject_creates_successor_witness :
    ∃ S', submitFeedback constModel sampleStore sampleRow.id false (some 40) (some "too stiff")
        = (Except.ok ({ rows := sampleStore.rows ++ [S'],
                        nextId := sampleStore.nextId + 1 }, S'),
           [{ content := sampleRow.content, category := sampleRow.category,
              rating := 40, comments := "too stiff" }])
      ∧ S'.originalEmailId = some sampleRow.id ∧ S'.category = sampleRow.category
      ∧ S'.approved = false ∧ sampleRow ∈ sampleStore.rows ∧ sampleRow.approved = false :=
  reject_creates_successor constModel sampleStore sampleRow 40 "too stiff"
    (by decide) (by decide) (by decide) (by decide)

/-- C2: approval is terminal. Once an approval request on an id has
succeeded, the approved row survives every later sequence of feedback
requests unchanged, and from any such later state a rejection request
on that id with a provided rating and comments fails with
InvalidStateTransition. -/
theorem approval_terminal (model : ModelCall → String) (st : Store) (i : Nat)
    (r0 : Option Nat) (c0 : Option String) (st1 : Store) (s1 : SyntheticEmail)
    (h : (submitFeedback model st i true r0 c0).fst = Except.ok (st1, s1)) :
    ∀ calls : List Call,
      ((runCalls model st1 calls).rows.find? (fun row => row.id == i) = some s1) ∧
      (∀ r c, r ≠ 0 → c ≠ "" →
        (submitFeedback model (runCalls model st1 calls) i false (some r) (some c)).fst
          = Except.error FeedbackError.InvalidStateTransition) := by
  obtain ⟨hfind1, happ1⟩ := approve_result model st i r0 c0 st1 s1 h
  intro calls
  have hst := approved_row_stable_run model st1 i s1 calls hfind1 happ1
  exact ⟨hst, fun r c hr hc => reject_approved_fails model _ i s1 r c hst happ1 hr hc⟩

/-- Witness for C2: approving the one pending row and then rejecting
it fails with InvalidStateTransition. -/
theorem approval_terminal_witness :
    ((runCalls constModel approvedStore
        [{ emailId := 1, isApproved := false, rating := some 40, comments := some "x" }]).rows.find?
        (fun row => row.id == 1) = some approvedRow) ∧
    ((submitFeedback constModel
        (runCalls constModel approvedStore
          [{ emailId := 1, isApproved := false, rating := some 40, comments := some "x" }])
        1 false (some 40) (some "x")).fst
      = Except.error FeedbackError.InvalidStateTransition) := by
  have h := approval_terminal constModel sampleStore 1 (some 100) (some "Approved")
    approvedStore approvedRow (by rfl)
    [{ emailId := 1, isApproved := false, rating := some 40, comments := some "x" }]
  exact ⟨h.1, h.2 40 "x" (by decide) (by decide)⟩

/-- C3: a rejection request whose rating or comments is missing fails
with ValidationError, makes no external-model call (empty call log)
and leaves the store unchanged, so no new SyntheticEmail row is
created. -/
theorem validation_blocks_reject (model : ModelCall → String) (st : Store)
    (emailId : Nat) (rating : Option Nat) (comments : Option String)
    (h : ratingMissing rating = true ∨ commentsMissing comments = true) :
    submitFeedback model st emailId false rating comments
      = (Except.error FeedbackError.ValidationError, [])
    ∧ step model st { emailId := emailId, isApproved := false,
                      rating := rating, comments := comments } = st := by
  have hcond : (ratingMissing rating || commentsMissing comments) = true := by
    rcases h with h | h <;> simp [h]
  constructor
  · simp [submitFeedback, hcond]
  · simp [step, submitFeedback, hcond]

/-- Witness for C3 with both rating and comments absent. -/
theorem validation_blocks_reject_witness :
    submitFeedback constModel sampleStore 1 false none none
      = (Except.error FeedbackError.ValidationError, [])
    ∧ step constModel sampleStore
        { emailId := 1, isApproved := false, rating := none, comments := none }
      = sampleStore :=
  validation_blocks_reject constModel sampleStore 1 none none (Or.inl (by decide))

/-- C4: saveStyleProfile yields exactly the approved synthetic emails
of the user when there is at least one, and fails with
NoApprovedSamples when the user has none. -/
theorem saveStyleProfile_exact (st : Store) (u : Nat) :
    ((∃ e ∈ st.rows, e.userId = u ∧ e.approved = true) →
      saveStyleProfile st u = Except.ok (approvedSamples st u) ∧
      ∀ e, e ∈ approvedSamples st u ↔ (e ∈ st.rows ∧ e.userId = u ∧ e.approved = true)) ∧
    ((¬ ∃ e ∈ st.rows, e.userId = u ∧ e.approved = true) →
      saveStyleProfile st u = Except.error ProfileError.NoApprovedSamples) := by
  constructor
  · rintro ⟨e, he, hu, ha⟩
    have hmem : e ∈ approvedSamples st u := (mem_approvedSamples st u e).mpr ⟨he, hu, ha⟩
    have hne : approvedSamples st u ≠ [] := by
      intro h0
      rw [h0] at hmem
      cases hmem
    constructor
    · simp [saveStyleProfile, List.isEmpty_iff, hne]
    · exact mem_approvedSamples st u
  · intro hno
    have h0 : approvedSamples st u = [] := by
      rw [List.eq_nil_iff_forall_not_mem]
      intro e hmem
      exact hno ⟨e, (mem_approvedSamples st u e).mp hmem⟩
    simp [saveStyleProfile, List.isEmpty_iff, h0]

/-- Witness for C4 on the spec scenario A approved, B pending, C
approved: the profile is exactly A and C. -/
theorem saveStyleProfile_exact_witness :
    saveStyleProfile profileStore 7 = Except.ok [rowA, rowC] := by
  have h := (saveStyleProfile_exact profileStore 7).1 ⟨rowA, by decide, rfl, rfl⟩
  rw [h.1]
  rfl

/-- C5: EmailGenerator.handleSubmit with an empty recipient, an empty
topic or no key points returns one of the three validation errors and
never the request that would be posted, so no external call is made
and no GeneratedEmail is produced. -/
theorem generateEmail_requires_inputs (recipient topic : String)
    (keyPoints : List String)
    (h : isBlank recipient = true ∨ isBlank topic = true ∨ keyPoints = []) :
    ∃ e, emailGeneratorSubmit 1 recipient topic keyPoints = Except.error e ∧
      (e = GenSubmitError.recipientRequired ∨ e = GenSubmitError.topicRequired ∨
       e = GenSubmitError.keyPointsRequired) := by
  by_cases hrec : isBlank recipient = true
  · exact ⟨GenSubmitError.recipientRequired, by simp [emailGeneratorSubmit, hrec],
           Or.inl rfl⟩
  · by_cases htop : isBlank topic = true
    · exact ⟨GenSubmitError.topicRequired, by simp [emailGeneratorSubmit, hrec, htop],
             Or.inr (Or.inl rfl)⟩
    · have hkp : keyPoints = [] := by tauto
      exact ⟨GenSubmitError.keyPointsRequired,
             by simp [emailGeneratorSubmit, hrec, htop, hkp], Or.inr (Or.inr rfl)⟩

/-- Witness for C5 on the spec example with an empty recipient. -/
theorem generateEmail_requires_inputs_witness :
    ∃ e, emailGeneratorSubmit 1 "" "topic" ["x"] = Except.error e ∧
      (e = GenSubmitError.recipientRequired ∨ e = GenSubmitError.topicRequired ∨
       e = GenSubmitError.keyPointsRequired) :=
  generateEmail_requires_inputs "" "topic" ["x"] (Or.inl (by decide))

/-- C6: the sample-generator output maps exactly the category names of
the input analysis, in order, each to samplesPerCategory samples, and
every produced sample carries the category of its key, is not approved
and has no originalEmailId. -/
theorem generator_category_partition (model : String → StyleCategory → Nat → String)
    (userId startId : Nat) (a : StyleAnalysis) :
    ((generateSamples model userId startId a).map Prod.fst
       = a.categories.map StyleCategory.name) ∧
    (∀ kl ∈ generateSamples model userId startId a,
      kl.2.length = samplesPerCategory ∧
      ∀ e ∈ kl.2, e.category = kl.1 ∧ e.approved = false ∧ e.originalEmailId = none) := by
  constructor
  · calc (generateSamples model userId startId a).map Prod.fst
        = a.categories.enum.map (fun ci => ci.2.name) := by
          simp [generateSamples, List.map_map]
      _ = (a.categories.enum.map Prod.snd).map StyleCategory.name := by
          rw [List.map_map]
          rfl
      _ = a.categories.map StyleCategory.name := by rw [List.enum_map_snd]
  · intro kl hkl
    obtain ⟨ci, _, rfl⟩ := List.mem_map.mp hkl
    refine ⟨by simp, ?_⟩
    intro e he
    obtain ⟨i, _, rfl⟩ := List.mem_map.mp he
    exact ⟨rfl, rfl, rfl⟩

/-- Witness for C6 on a Formal/Casual analysis: keys are the two
category names and each holds ten samples. -/
theorem generator_category_partition_witness :
    ((generateSamples demoModel 7 1 demoAnalysis).map Prod.fst = ["Formal", "Casual"]) ∧
    ((generateSamples demoModel 7 1 demoAnalysis).map (fun kl => kl.2.length) = [10, 10]) := by
  constructor
  · rw [(generator_category_partition demoModel 7 1 demoAnalysis).1]
    decide
  · decide

/-- C7: re-approving an already-approved synthetic email is an
idempotent no-op success: the store is returned identical (no new row,
nothing mutated), the unchanged row is returned, and no external-model
call is made. -/
theorem reapprove_idempotent (model : ModelCall → String) (st : Store) (i : Nat)
    (s : SyntheticEmail) (rating : Option Nat) (comments : Option String)
    (hfind : st.rows.find? (fun row => row.id == i) = some s)
    (happ : s.approved = true) :
    submitFeedback model st i true rating comments = (Except.ok (st, s), []) := by
  simp [submitFeedback, hfind, happ]

/-- Witness for C7 on a store whose single row is already approved. -/
theorem reapprove_idempotent_witness :
    submitFeedback constModel approvedStore 1 true (some 100) (some "Approved")
      = (Except.ok (approvedStore, approvedRow), []) :=
  reapprove_idempotent constModel approvedStore 1 approvedRow (some 100) (some "Approved")
    (by decide) (by decide)

/-- C8: with fewer than two email pairs the submit button of both
EmailInputForm copies is disabled and no submit request is issued. -/
theorem min_two_pairs_enforced (ps : List EmailPair) (loading isSubmitting : Bool)
    (h : ps.length < 2) :
    submitDisabled ps.length loading isSubmitting = true ∧
    submitRequest ps loading isSubmitting = none ∧
    submitDisabledAlt ps.length loading = true ∧
    submitRequestAlt ps loading = none := by
  have h1 : submitDisabled ps.length loading isSubmitting = true := by
    simp [submitDisabled, h]
  have h5 : ps.length < 5 := lt_trans h (by norm_num)
  have h2 : submitDisabledAlt ps.length loading = true := by
    simp [submitDisabledAlt, h5]
  exact ⟨h1, by simp [submitRequest, h1], h2, by simp [submitRequestAlt, h2]⟩

/-- Witness for C8 on the initial one-pair state. -/
theorem min_two_pairs_enforced_witness :
    submitDisabled initialPairs.length false false = true ∧
    submitRequest initialPairs false false = none ∧
    submitDisabledAlt initialPairs.length false = true ∧
    submitRequestAlt initialPairs false = none :=
  min_two_pairs_enforced initialPairs false false (by decide)

/-- C9: the email-pair list is never empty in any state reachable from
the initial one-pair state by add, remove and change operations. -/
theorem emailPairs_never_empty (ops : List FormOp) :
    0 < (runOps ops initialPairs).length := by
  have h := formInv_runOps ops initialPairs
    ⟨by simp [initialPairs], by simp [initialPairs]⟩
  exact List.length_pos.mpr h.1

/-- C10: pair ids are pairwise distinct in every state reachable from
the initial one-pair state by add, remove and change operations. -/
theorem pair_ids_nodup (ops : List FormOp) :
    ((runOps ops initialPairs).map (fun p => p.id)).Nodup :=
  (formInv_runOps ops initialPairs ⟨by simp [initialPairs], by simp [initialPairs]⟩).2

end EmailAssist
